import Mathlib

/-!
Verification of the task-management backend (ownership-scoped CRUD over
Tasks/Categories with a status-transition engine, filtering and stats).

The definitions below are a shallow embedding of the Python/Django source:

  * `apps/tasks/models.py`      — `Task`, `Category`, `Task.is_overdue`
  * `apps/tasks/serializers.py` — `VALID_TRANSITIONS`, `TaskSerializer.validate`,
                                  `validate_due_date`, `validate_category`,
                                  `CategorySerializer.validate_name`
  * `apps/tasks/views.py`       — queryset scoping, `perform_create`, `stats`
  * `apps/tasks/filters.py`     — `filter_csv_field`, `filter_overdue`
  * `apps/tasks/permissions.py` — `IsOwner`
  * `apps/accounts/views.py`    — `PasswordResetRequestView.post`

Dates are modelled as day ordinals (`Int`); a database table is a `List` of
rows; users, tasks and categories are identified by `Nat` ids.
-/

namespace TasksApp

/-- `Task.Status` from `apps/tasks/models.py` (TextChoices todo / in_progress / done). -/
inductive Status where
  | todo
  | in_progress
  | done
deriving DecidableEq, Repr

/-- `Task.Priority` from `apps/tasks/models.py` (low / medium / high / urgent). -/
inductive Priority where
  | low
  | medium
  | high
  | urgent
deriving DecidableEq, Repr

/-- The string value of a status, as stored in the database column. -/
def Status.value : Status → String
  | .todo => "todo"
  | .in_progress => "in_progress"
  | .done => "done"

/-- The string value of a priority, as stored in the database column. -/
def Priority.value : Priority → String
  | .low => "low"
  | .medium => "medium"
  | .high => "high"
  | .urgent => "urgent"

/-- The `Category` model of `apps/tasks/models.py`: name, colour, owning user. -/
structure Category where
  id : Nat
  name : String
  colour : String
  user : Nat
deriving DecidableEq, Repr

/-- The `Task` model of `apps/tasks/models.py`.  `due_date` is nullable
(`none` models SQL NULL); `category` is a nullable foreign key. -/
structure Task where
  id : Nat
  title : String
  description : String
  status : Status
  priority : Priority
  due_date : Option Int
  category : Option Nat
  user : Nat
deriving DecidableEq, Repr

/-- `Task.is_overdue` from `apps/tasks/models.py`:
`if self.due_date and self.status != DONE: return self.due_date < today`,
else `False`.  A bound date is always truthy in Python, so the guard is
exactly "due_date is not NULL and status is not done". -/
def Task.is_overdue (t : Task) (today : Int) : Bool :=
  if t.due_date.isSome && !(t.status == Status.done) then
    match t.due_date with
    | some d => decide (d < today)
    | none => false
  else false

/-- A field-keyed validation rejection (`serializers.ValidationError({field: msg})`). -/
structure FieldError where
  field : String
  message : String
deriving DecidableEq, Repr

/-- `TaskSerializer.VALID_TRANSITIONS` from `apps/tasks/serializers.py`:
todo → {todo, in_progress}; in_progress → {in_progress, done, todo};
done → {done, todo}. -/
def VALID_TRANSITIONS : Status → List Status
  | .todo => [.todo, .in_progress]
  | .in_progress => [.in_progress, .done, .todo]
  | .done => [.done, .todo]

/-- The rejection raised by `TaskSerializer.validate` for an illegal
transition: keyed on the `status` field. -/
def invalidTransition (current requested : Status) : FieldError :=
  { field := "status"
  , message := "Invalid transition from " ++ current.value ++ " to " ++ requested.value ++ "." }

/-- `TaskSerializer.validate` restricted to a status-bearing update
(`self.instance` set and `"status" in attrs`): accept the requested status
when the pair is in the table, else raise the field-keyed error.  On
acceptance the serializer saves the instance with the new status. -/
def updateTaskStatus (t : Task) (requested : Status) : Except FieldError Task :=
  if requested ∈ VALID_TRANSITIONS t.status then
    Except.ok { t with status := requested }
  else
    Except.error (invalidTransition t.status requested)

/-! ## Ownership scoping (`views.py` querysets, `permissions.py` IsOwner) -/

/-- `TaskViewSet.get_queryset`: `Task.objects.filter(user=self.request.user)`. -/
def visibleTasks (u : Nat) (db : List Task) : List Task :=
  db.filter (fun t => t.user == u)

/-- `CategoryViewSet.get_queryset`: `Category.objects.filter(user=self.request.user)`. -/
def visibleCategories (u : Nat) (db : List Category) : List Category :=
  db.filter (fun c => c.user == u)

/-- The error outcomes an endpoint can produce: DRF 404 (lookup missed the
scoped queryset), 403 (object permission failed), or a 400 validation
rejection keyed on a field. -/
inductive ApiError where
  | notFound
  | forbidden
  | validation (field : String)
deriving DecidableEq, Repr

/-- DRF `get_object` for `TaskViewSet`: look the id up in the scoped
queryset (404 on a miss), then run `IsOwner.has_object_permission`
(`obj.user == request.user`; 403 on failure). -/
def getObjectTask (u : Nat) (db : List Task) (tid : Nat) : Except ApiError Task :=
  match (visibleTasks u db).find? (fun t => t.id == tid) with
  | none => Except.error ApiError.notFound
  | some t => if t.user == u then Except.ok t else Except.error ApiError.forbidden

/-- DRF `get_object` for `CategoryViewSet`, same shape as `getObjectTask`. -/
def getObjectCategory (u : Nat) (db : List Category) (cid : Nat) : Except ApiError Category :=
  match (visibleCategories u db).find? (fun c => c.id == cid) with
  | none => Except.error ApiError.notFound
  | some c => if c.user == u then Except.ok c else Except.error ApiError.forbidden

/-- PATCH `/tasks/{id}` carrying a `status` field: `get_object`, then
`TaskSerializer.validate` (the transition check), then save.  On success the
stored row is replaced; any error leaves the table untouched. -/
def patchTaskStatus (u : Nat) (db : List Task) (tid : Nat) (requested : Status) :
    Except ApiError (List Task) :=
  match getObjectTask u db tid with
  | Except.error e => Except.error e
  | Except.ok t =>
    match updateTaskStatus t requested with
    | Except.error fe => Except.error (ApiError.validation fe.field)
    | Except.ok t' => Except.ok (db.map (fun x => if x.id == tid then t' else x))

/-- DELETE `/tasks/{id}`: `get_object`, then delete the row. -/
def destroyTask (u : Nat) (db : List Task) (tid : Nat) : Except ApiError (List Task) :=
  match getObjectTask u db tid with
  | Except.error e => Except.error e
  | Except.ok _ => Except.ok (db.filter (fun t => !(t.id == tid)))

/-! ## Filtering (`apps/tasks/filters.py`) -/

/-- The overdue predicate of `TaskFilter.filter_overdue`:
`Q(due_date__lt=today) & ~Q(status=DONE)`.  A NULL `due_date` never
satisfies `due_date__lt`. -/
def overduePred (today : Int) (t : Task) : Bool :=
  (match t.due_date with
   | some d => decide (d < today)
   | none => false) && !(t.status == Status.done)

/-- `TaskFilter.filter_overdue`: `?overdue=true` filters by `overdue_q`;
`?overdue=false` runs `exclude(overdue_q)`.  Django compiles the excluded
negation of a lookup on a nullable column with an `IS NOT NULL` companion,
so `exclude` keeps exactly the rows where the predicate fails, NULL
due dates included. -/
def filter_overdue (today : Int) (qs : List Task) (value : Bool) : List Task :=
  if value then qs.filter (overduePred today)
  else qs.filter (fun t => !(overduePred today t))

/-- Python's `str.strip()`: drop leading and trailing whitespace. -/
def pyStrip (cs : List Char) : List Char :=
  ((cs.dropWhile Char.isWhitespace).reverse.dropWhile Char.isWhitespace).reverse

/-- `TaskFilter.filter_csv_field`'s preprocessing:
`[v.strip() for v in value.split(",") if v.strip()]`, modelled over the
character list (`value.split(",")` keeps empty segments; the comprehension
then drops every segment that strips to empty). -/
def csvValues (value : String) : List String :=
  ((value.data.splitOn ',').map (fun cs => String.mk (pyStrip cs))).filter
    (fun v => !(v == ""))

/-- `TaskFilter.filter_csv_field`: membership filter on the cleaned CSV
values, or the unfiltered queryset when no value survives. -/
def filter_csv_field (fieldOf : Task → String) (qs : List Task) (value : String) :
    List Task :=
  let values := csvValues value
  if values.isEmpty then qs
  else qs.filter (fun t => values.contains (fieldOf t))

/-! ## Stats (`TaskViewSet.stats`) -/

/-- The three members of `Task.Status`, in declaration order. -/
def statusValues : List Status := [Status.todo, Status.in_progress, Status.done]

/-- The four members of `Task.Priority`, in declaration order. -/
def priorityValues : List Priority := [Priority.low, Priority.medium, Priority.high, Priority.urgent]

/-- The response body of GET `/tasks/stats/`. -/
structure StatsData where
  total : Nat
  by_status : List (String × Nat)
  by_priority : List (String × Nat)
  overdue : Nat
deriving DecidableEq, Repr

/-- `TaskViewSet.stats`: total count, per-status and per-priority counts
zero-filled over every enum member
(`{s.value: status_counts.get(s.value, 0) for s in Task.Status}`), and the
overdue count `qs.filter(due_date__lt=today).exclude(status=DONE).count()`. -/
def statsView (qs : List Task) (today : Int) : StatsData :=
  { total := qs.length
  , by_status := statusValues.map
      (fun s => (s.value, (qs.filter (fun t => t.status == s)).length))
  , by_priority := priorityValues.map
      (fun p => (p.value, (qs.filter (fun t => t.priority == p)).length))
  , overdue := (qs.filter (fun t =>
      (match t.due_date with
       | some d => decide (d < today)
       | none => false) && !(t.status == Status.done))).length }

/-! ## Task creation (`TaskSerializer` + `TaskViewSet.perform_create`) -/

/-- The writable payload of POST `/tasks/`: every writable serializer field
(`title`, `description`, `status`, `priority`, `due_date`, `category`);
`none` models an omitted field. -/
structure TaskCreateInput where
  title : String
  description : Option String := none
  status : Option Status := none
  priority : Option Priority := none
  due_date : Option Int := none
  category : Option Nat := none
deriving DecidableEq, Repr

/-- `TaskSerializer.validate_due_date` on creation (`self.instance is None`):
reject a bound value strictly before today.  The same field on update is
the `is_create = false` branch: unconditionally accepted. -/
def validate_due_date (value : Option Int) (is_create : Bool) (today : Int) :
    Except FieldError Unit :=
  match value with
  | some d =>
    if is_create && decide (d < today) then
      Except.error { field := "due_date", message := "Due date cannot be in the past." }
    else Except.ok ()
  | none => Except.ok ()

/-- `TaskSerializer.validate_category`: a bound category reference must
resolve and belong to the requesting user. -/
def validate_category (catDb : List Category) (owner : Nat) :
    Option Nat → Except FieldError Unit
  | none => Except.ok ()
  | some cid =>
    match catDb.find? (fun c => c.id == cid) with
    | none => Except.error { field := "category", message := "Invalid category." }
    | some c =>
      if c.user == owner then Except.ok ()
      else Except.error { field := "category", message := "You can only assign your own categories." }

/-- POST `/tasks/`: field validation (`validate_due_date` with no instance,
`validate_category`), then `TaskSerializer.validate` — which skips the
transition check because `self.instance is None` — then
`perform_create`, saving with `user=request.user` and the model defaults
`status=todo`, `priority=medium` for omitted fields.  A supplied `status`
is a writable choice field and is stored as given. -/
def createTask (catDb : List Category) (owner newId : Nat) (today : Int)
    (inp : TaskCreateInput) : Except FieldError Task := do
  validate_due_date inp.due_date true today
  validate_category catDb owner inp.category
  pure { id := newId
       , title := inp.title
       , description := inp.description.getD ""
       , status := inp.status.getD Status.todo
       , priority := inp.priority.getD Priority.medium
       , due_date := inp.due_date
       , category := inp.category
       , user := owner }

/-! ## Category name validation (`CategorySerializer.validate_name`) -/

/-- Django's `name__iexact`: case-insensitive string equality, modelled by
lowercasing character-wise. -/
def iexact (a b : String) : Bool :=
  a.data.map Char.toLower == b.data.map Char.toLower

/-- `CategorySerializer.validate_name`: reject when another category of the
same owner already carries the name case-insensitively;
`excluding` is the pk of the instance under update
(`qs.exclude(pk=self.instance.pk)`), `none` on create. -/
def validate_name (db : List Category) (owner : Nat) (value : String)
    (excluding : Option Nat) : Except FieldError Unit :=
  let qs := db.filter (fun (c : Category) => iexact c.name value && c.user == owner)
  let qs2 : List Category := match excluding with
    | some pk => qs.filter (fun c => !(c.id == pk))
    | none => qs
  if qs2.isEmpty then Except.ok ()
  else Except.error { field := "name", message := "You already have a category with this name." }

/-! ## Password reset request (`accounts/views.py`) -/

/-- A JSON HTTP response: status code and body text. -/
structure HttpResponse where
  statusCode : Nat
  body : String
deriving DecidableEq, Repr

/-- An account row as far as the reset endpoint reads it. -/
structure Account where
  id : Nat
  email : String
  is_active : Bool
deriving DecidableEq, Repr

/-- The fixed `success_msg` body of `PasswordResetRequestView.post`. -/
def resetSuccessBody : String :=
  "If an account with that email exists, a reset link has been sent."

/-- `PasswordResetRequestView.post` for a well-formed email: look up an
active account; on a miss return 200 with `success_msg`; on a hit send the
reset email and return the same 200 with `success_msg`.  The second
component records the outbound reset emails (the side channel that is
allowed to differ). -/
def passwordResetRequest (db : List Account) (email : String) :
    HttpResponse × List String :=
  match db.find? (fun a => a.email == email && a.is_active) with
  | none => ({ statusCode := 200, body := resetSuccessBody }, [])
  | some a => ({ statusCode := 200, body := resetSuccessBody }, [a.email])

/-- DELETE `/categories/{id}`: `get_object`, then delete the row (its tasks
get their category reference nulled, not modelled here). -/
def destroyCategory (u : Nat) (db : List Category) (cid : Nat) :
    Except ApiError (List Category) :=
  match getObjectCategory u db cid with
  | Except.error e => Except.error e
  | Except.ok _ => Except.ok (db.filter (fun c => !(c.id == cid)))

/-! ## Shared helper lemmas -/

/-- `validate_due_date` only ever rejects on the `due_date` field. -/
theorem validate_due_date_error_field (value : Option Int) (is_create : Bool)
    (today : Int) (e : FieldError)
    (h : validate_due_date value is_create today = Except.error e) :
    e.field = "due_date" := by
  cases hv : value with
  | none => rw [hv] at h; simp [validate_due_date] at h
  | some d =>
    rw [hv] at h
    by_cases hc : is_create && decide (d < today) <;>
      simp [validate_due_date, hc] at h
    rw [← h]

/-- `validate_category` only ever rejects on the `category` field. -/
theorem validate_category_error_field (catDb : List Category) (owner : Nat)
    (value : Option Nat) (e : FieldError)
    (h : validate_category catDb owner value = Except.error e) :
    e.field = "category" := by
  cases hv : value with
  | none => rw [hv] at h; simp [validate_category] at h
  | some cid =>
    rw [hv] at h
    cases hf : catDb.find? (fun c => c.id == cid) with
    | none => rw [validate_category, hf] at h; cases h; rfl
    | some c =>
      rw [validate_category, hf] at h
      by_cases hu : c.user == owner <;> simp [hu] at h
      rw [← h]

/-- A scoped lookup misses every id that belongs only to another owner. -/
theorem visibleTasks_find_none (A : Nat) (db : List Task) (tsk : Task)
    (hB : tsk.user ≠ A)
    (hid : ∀ t ∈ db, t.id = tsk.id → t = tsk) :
    (visibleTasks A db).find? (fun t => t.id == tsk.id) = none := by
  cases hfind : (visibleTasks A db).find? (fun t => t.id == tsk.id) with
  | none => rfl
  | some t =>
    have hp := List.find?_some hfind
    have hm : t ∈ visibleTasks A db := List.mem_of_find?_eq_some hfind
    rw [visibleTasks, List.mem_filter] at hm
    have ht : t = tsk := hid t hm.1 (by simpa using hp)
    rw [ht] at hm
    exact absurd (by simpa using hm.2) hB

/-- Category version of `visibleTasks_find_none`. -/
theorem visibleCategories_find_none (A : Nat) (db : List Category) (cat : Category)
    (hB : cat.user ≠ A)
    (hid : ∀ c ∈ db, c.id = cat.id → c = cat) :
    (visibleCategories A db).find? (fun c => c.id == cat.id) = none := by
  cases hfind : (visibleCategories A db).find? (fun c => c.id == cat.id) with
  | none => rfl
  | some c =>
    have hp := List.find?_some hfind
    have hm : c ∈ visibleCategories A db := List.mem_of_find?_eq_some hfind
    rw [visibleCategories, List.mem_filter] at hm
    have hc : c = cat := hid c hm.1 (by simpa using hp)
    rw [hc] at hm
    exact absurd (by simpa using hm.2) hB

/-- After the row with a given id is removed, the scoped lookup for it misses. -/
theorem visibleTasks_find_removed_none (A : Nat) (db : List Task) (tid : Nat) :
    (visibleTasks A (db.filter (fun t => !(t.id == tid)))).find?
      (fun t => t.id == tid) = none := by
  cases hfind : (visibleTasks A (db.filter (fun t => !(t.id == tid)))).find?
      (fun t => t.id == tid) with
  | none => rfl
  | some t =>
    have hp := List.find?_some hfind
    have hm := List.mem_of_find?_eq_some hfind
    rw [visibleTasks, List.mem_filter, List.mem_filter] at hm
    rw [hp] at hm
    simpa using hm.1.2

/-- Category version of `visibleTasks_find_removed_none`. -/
theorem visibleCategories_find_removed_none (A : Nat) (db : List Category) (cid : Nat) :
    (visibleCategories A (db.filter (fun c => !(c.id == cid)))).find?
      (fun c => c.id == cid) = none := by
  cases hfind : (visibleCategories A (db.filter (fun c => !(c.id == cid)))).find?
      (fun c => c.id == cid) with
  | none => rfl
  | some c =>
    have hp := List.find?_some hfind
    have hm := List.mem_of_find?_eq_some hfind
    rw [visibleCategories, List.mem_filter, List.mem_filter] at hm
    rw [hp] at hm
    simpa using hm.1.2

/-- `overduePred` unfolded into a proposition. -/
theorem overduePred_iff (today : Int) (t : Task) :
    overduePred today t = true ↔
      (∃ d, t.due_date = some d ∧ d < today) ∧ t.status ≠ Status.done := by
  cases h : t.due_date <;> simp [overduePred, h]

/-- A concrete task used by witness statements: in progress, due yesterday. -/
def sampleTask : Task :=
  { id := 1
  , title := "Write report"
  , description := ""
  , status := Status.in_progress
  , priority := Priority.medium
  , due_date := some (-1)
  , category := none
  , user := 1 }

/-! ## Claims -/

/-- C1: a Task update carrying a status is accepted exactly when the
(current, requested) pair is in `VALID_TRANSITIONS`; on acceptance the
stored status equals the requested one and the stored row is the old row
with only the status replaced; outside the table the update fails with an
error keyed on the `status` field and the table is returned unchanged
(the endpoint yields an error, so no row is written). -/
theorem status_update_follows_transition_table (t : Task) (requested : Status) :
    (requested ∈ VALID_TRANSITIONS t.status →
      updateTaskStatus t requested = Except.ok { t with status := requested }) ∧
    (requested ∉ VALID_TRANSITIONS t.status →
      updateTaskStatus t requested = Except.error (invalidTransition t.status requested) ∧
      (invalidTransition t.status requested).field = "status") ∧
    (∀ u db, getObjectTask u db t.id = Except.ok t →
      (requested ∈ VALID_TRANSITIONS t.status →
        patchTaskStatus u db t.id requested =
          Except.ok (db.map (fun x => if x.id == t.id then { t with status := requested } else x))) ∧
      (requested ∉ VALID_TRANSITIONS t.status →
        patchTaskStatus u db t.id requested = Except.error (ApiError.validation "status"))) := by
  refine ⟨?_, ?_, ?_⟩
  · intro h
    simp [updateTaskStatus, h]
  · intro h
    simp [updateTaskStatus, h, invalidTransition]
  · intro u db hget
    constructor
    · intro h
      simp [patchTaskStatus, hget, updateTaskStatus, h]
    · intro h
      simp [patchTaskStatus, hget, updateTaskStatus, h, invalidTransition]

/-- Witness for C1 at concrete inputs: `in_progress → done` is accepted,
`done → in_progress` is rejected with a status-keyed error. -/
theorem status_update_follows_transition_table_witness :
    updateTaskStatus sampleTask Status.done =
      Except.ok { sampleTask with status := Status.done } ∧
    updateTaskStatus { sampleTask with status := Status.done } Status.in_progress =
      Except.error (invalidTransition Status.done Status.in_progress) :=
  ⟨(status_update_follows_transition_table sampleTask Status.done).1 (by decide),
   ((status_update_follows_transition_table
      { sampleTask with status := Status.done } Status.in_progress).2.1 (by decide)).1⟩

/-- C4: `is_overdue` holds exactly when a due date is set, it is strictly
before today, and the status is not done; setting the status to done makes
it false and leaves the due date unchanged. -/
theorem is_overdue_characterisation (t : Task) (today : Int) :
    (t.is_overdue today = true ↔
      (∃ d, t.due_date = some d ∧ d < today) ∧ t.status ≠ Status.done) ∧
    ({ t with status := Status.done } : Task).is_overdue today = false ∧
    ({ t with status := Status.done } : Task).due_date = t.due_date := by
  refine ⟨?_, ?_, rfl⟩
  · cases h : t.due_date <;>
      by_cases hs : t.status = Status.done <;>
        simp [Task.is_overdue, h, hs]
  · cases h : t.due_date <;> simp [Task.is_overdue, h]

/-- C5: `?overdue=true` returns exactly the owner's tasks with a due date
strictly before today and status not done; `?overdue=false` returns exactly
the complement of that set within the queryset (tasks with no due date
included), and the two results partition the queryset. -/
theorem overdue_filter_partitions (today : Int) (qs : List Task) (t : Task) :
    (t ∈ filter_overdue today qs true ↔
      t ∈ qs ∧ (∃ d, t.due_date = some d ∧ d < today) ∧ t.status ≠ Status.done) ∧
    (t ∈ filter_overdue today qs false ↔
      t ∈ qs ∧ ¬((∃ d, t.due_date = some d ∧ d < today) ∧ t.status ≠ Status.done)) ∧
    (filter_overdue today qs true).length + (filter_overdue today qs false).length
      = qs.length := by
  refine ⟨?_, ?_, ?_⟩
  · rw [filter_overdue, if_pos rfl, List.mem_filter]
    exact and_congr_right (fun _ => overduePred_iff today t)
  · rw [filter_overdue, if_neg (by simp), List.mem_filter]
    refine and_congr_right (fun _ => ?_)
    rw [Bool.not_eq_true', ← Bool.not_eq_true, not_iff_not]
    exact overduePred_iff today t
  · rw [filter_overdue, filter_overdue, if_pos rfl, if_neg (by simp)]
    exact (List.length_eq_length_filter_add (overduePred today)).symm

/-- C7: due-date validation rejects exactly on creation with a supplied
date strictly before today; on update every date is accepted, so an
existing overdue task can be edited. -/
theorem due_date_validation_create_only (value : Option Int) (is_create : Bool)
    (today : Int) :
    ((∃ e, validate_due_date value is_create today = Except.error e) ↔
      is_create = true ∧ ∃ d, value = some d ∧ d < today) ∧
    (∀ d : Int, validate_due_date (some d) false today = Except.ok ()) ∧
    (∀ e, validate_due_date value is_create today = Except.error e →
      e.field = "due_date") := by
  refine ⟨?_, fun d => by simp [validate_due_date], ?_⟩
  · cases h : value with
    | none => simp [validate_due_date]
    | some d =>
      cases is_create <;> by_cases hd : d < today <;>
        simp [validate_due_date, hd]
  · intro e he
    cases h : value with
    | none => rw [h] at he; simp [validate_due_date] at he
    | some d =>
      rw [h] at he
      by_cases hc : is_create && decide (d < today) <;>
        simp [validate_due_date, hc] at he
      rw [← he]

/-- C9: the password-reset endpoint returns the same 200 response with the
same body whether or not the submitted email belongs to an active account;
only the outbound-email side channel differs. -/
theorem password_reset_uniform_response (db : List Account) (e1 e2 : String) :
    (passwordResetRequest db e1).1 = (passwordResetRequest db e2).1 ∧
    (passwordResetRequest db e1).1.statusCode = 200 ∧
    (passwordResetRequest db e1).1.body = resetSuccessBody := by
  unfold passwordResetRequest
  cases db.find? (fun a => a.email == e1 && a.is_active) <;>
    cases db.find? (fun a => a.email == e2 && a.is_active) <;>
      exact ⟨rfl, rfl, rfl⟩

/-- C2 counterexample: POST `/tasks/` with `status = done` in the body
stores `done`, not `todo` — `status` is a writable serializer field and the
transition check is skipped when there is no instance. -/
theorem creation_honours_client_status :
    (createTask [] 7 1 0 { title := "T", status := some Status.done }).map Task.status
      = Except.ok Status.done ∧
    Status.done ≠ Status.todo := ⟨rfl, by decide⟩

/-- C2 amended: on creation the transition engine is never consulted (no
rejection keyed on `status` is possible); when the request omits `status`
the created task's status is the model default `todo`; a client-supplied
status, however, is stored as given. -/
theorem creation_defaults_and_engine_not_consulted
    (catDb : List Category) (owner newId : Nat) (today : Int) (inp : TaskCreateInput) :
    (∀ e, createTask catDb owner newId today inp = Except.error e → e.field ≠ "status") ∧
    (inp.status = none → ∀ t, createTask catDb owner newId today inp = Except.ok t →
      t.status = Status.todo) ∧
    (∀ s, inp.status = some s → ∀ t, createTask catDb owner newId today inp = Except.ok t →
      t.status = s) := by
  have hrun :
      (∃ e, createTask catDb owner newId today inp = Except.error e ∧
        (validate_due_date inp.due_date true today = Except.error e ∨
         validate_category catDb owner inp.category = Except.error e)) ∨
      (∃ t, createTask catDb owner newId today inp = Except.ok t ∧
        t.status = inp.status.getD Status.todo) := by
    cases h1 : validate_due_date inp.due_date true today with
    | error e1 =>
      refine Or.inl ⟨e1, ?_, Or.inl rfl⟩
      rw [createTask, h1]
      rfl
    | ok u1 =>
      cases h2 : validate_category catDb owner inp.category with
      | error e2 =>
        refine Or.inl ⟨e2, ?_, Or.inr rfl⟩
        rw [createTask, h1, h2]
        rfl
      | ok u2 =>
        have hok : createTask catDb owner newId today inp =
            Except.ok
              { id := newId
              , title := inp.title
              , description := inp.description.getD ""
              , status := inp.status.getD Status.todo
              , priority := inp.priority.getD Priority.medium
              , due_date := inp.due_date
              , category := inp.category
              , user := owner } := by
          rw [createTask, h1, h2]
          rfl
        exact Or.inr ⟨_, hok, rfl⟩
  refine ⟨?_, ?_, ?_⟩
  · intro e he
    rcases hrun with ⟨e', he', hv⟩ | ⟨t, ht, _⟩
    · rw [he] at he'
      cases he'
      rcases hv with hv | hv
      · rw [validate_due_date_error_field _ _ _ _ hv]
        decide
      · rw [validate_category_error_field _ _ _ _ hv]
        decide
    · rw [he] at ht
      cases ht
  · intro hs t ht
    rcases hrun with ⟨e', he', _⟩ | ⟨t', ht', hst⟩
    · rw [ht] at he'
      cases he'
    · rw [ht] at ht'
      cases ht'
      rw [hst, hs]
      rfl
  · intro s hs t ht
    rcases hrun with ⟨e', he', _⟩ | ⟨t', ht', hst⟩
    · rw [ht] at he'
      cases he'
    · rw [ht] at ht'
      cases ht'
      rw [hst, hs]
      rfl

/-- Witness for the amended C2 at a concrete input: a creation that omits
`status` yields a task whose status is `todo`. -/
theorem creation_defaults_witness :
    ({ id := 1, title := "T", description := "", status := Status.todo
     , priority := Priority.medium, due_date := none, category := none
     , user := 7 } : Task).status = Status.todo :=
  (creation_defaults_and_engine_not_consulted [] 7 1 0 { title := "T" }).2.1 rfl _ rfl

/-- C3: a Category or Task owned by B is invisible to a distinct owner A:
it is excluded from A's scoped list queryset, a detail lookup on its id
yields not-found (never forbidden) and agrees with the lookup on the table
with that row removed, and update/delete — which route through the same
lookup — yield the same not-found. -/
theorem cross_owner_behaves_as_not_found (A B : Nat) (hAB : A ≠ B)
    (tdb : List Task) (cdb : List Category) (tsk : Task) (cat : Category)
    (htB : tsk.user = B) (hcB : cat.user = B)
    (htid : ∀ t ∈ tdb, t.id = tsk.id → t = tsk)
    (hcid : ∀ c ∈ cdb, c.id = cat.id → c = cat) :
    tsk ∉ visibleTasks A tdb ∧
    cat ∉ visibleCategories A cdb ∧
    getObjectTask A tdb tsk.id = Except.error ApiError.notFound ∧
    getObjectTask A tdb tsk.id
      = getObjectTask A (tdb.filter (fun t => !(t.id == tsk.id))) tsk.id ∧
    getObjectCategory A cdb cat.id = Except.error ApiError.notFound ∧
    getObjectCategory A cdb cat.id
      = getObjectCategory A (cdb.filter (fun c => !(c.id == cat.id))) cat.id ∧
    (∀ r, patchTaskStatus A tdb tsk.id r = Except.error ApiError.notFound) ∧
    destroyTask A tdb tsk.id = Except.error ApiError.notFound ∧
    destroyCategory A cdb cat.id = Except.error ApiError.notFound := by
  have htu : tsk.user ≠ A := by rw [htB]; exact fun h => hAB h.symm
  have hcu : cat.user ≠ A := by rw [hcB]; exact fun h => hAB h.symm
  have hft := visibleTasks_find_none A tdb tsk htu htid
  have hfc := visibleCategories_find_none A cdb cat hcu hcid
  have hgt : getObjectTask A tdb tsk.id = Except.error ApiError.notFound := by
    rw [getObjectTask, hft]
  have hgc : getObjectCategory A cdb cat.id = Except.error ApiError.notFound := by
    rw [getObjectCategory, hfc]
  refine ⟨?_, ?_, hgt, ?_, hgc, ?_, ?_, ?_, ?_⟩
  · intro hmem
    rw [visibleTasks, List.mem_filter] at hmem
    exact htu (by simpa using hmem.2)
  · intro hmem
    rw [visibleCategories, List.mem_filter] at hmem
    exact hcu (by simpa using hmem.2)
  · rw [hgt, getObjectTask, visibleTasks_find_removed_none]
  · rw [hgc, getObjectCategory, visibleCategories_find_removed_none]
  · intro r
    rw [patchTaskStatus, hgt]
  · rw [destroyTask, hgt]
  · rw [destroyCategory, hgc]

/-- A task owned by user 2, used by the C3 witness. -/
def otherOwnerTask : Task :=
  { id := 9
  , title := "Their task"
  , description := ""
  , status := Status.todo
  , priority := Priority.low
  , due_date := none
  , category := none
  , user := 2 }

/-- A category owned by user 2, used by the C3 witness. -/
def otherOwnerCategory : Category :=
  { id := 9, name := "Theirs", colour := "#6366f1", user := 2 }

/-- Witness for C3 at concrete inputs: user 1 looking up user 2's task and
category ids gets not-found, and delete gets the same. -/
theorem cross_owner_behaves_as_not_found_witness :
    getObjectTask 1 [otherOwnerTask] otherOwnerTask.id
      = Except.error ApiError.notFound ∧
    getObjectCategory 1 [otherOwnerCategory] otherOwnerCategory.id
      = Except.error ApiError.notFound ∧
    destroyTask 1 [otherOwnerTask] otherOwnerTask.id
      = Except.error ApiError.notFound := by
  have h := cross_owner_behaves_as_not_found 1 2 (by decide)
    [otherOwnerTask] [otherOwnerCategory] otherOwnerTask otherOwnerCategory
    rfl rfl (by decide) (by decide)
  exact ⟨h.2.2.1, h.2.2.2.2.1, h.2.2.2.2.2.2.2.1⟩

/-- C6: creating a category whose name case-insensitively equals one of the
owner's existing names is rejected with a name-keyed error; an update that
keeps the category's own name is accepted (the instance excludes itself);
the same name under another owner with no clashing category of their own is
accepted. -/
theorem category_name_uniqueness (db : List Category) (owner otherOther : Nat)
    (c : Category) (value : String)
    (hc : c ∈ db) (ho : c.user = owner) (hname : iexact c.name value = true) :
    (∃ e, validate_name db owner value none = Except.error e ∧ e.field = "name") ∧
    ((∀ c' ∈ db, c'.user = owner → iexact c'.name c.name = true → c'.id = c.id) →
      validate_name db owner c.name (some c.id) = Except.ok ()) ∧
    ((∀ c' ∈ db, c'.user = otherOther → iexact c'.name value = false) →
      validate_name db otherOther value none = Except.ok ()) := by
  refine ⟨?_, ?_, ?_⟩
  · have hmem : c ∈ db.filter
        (fun (c' : Category) => iexact c'.name value && c'.user == owner) :=
      List.mem_filter.mpr ⟨hc, by simp [hname, ho]⟩
    have hne : (db.filter
        (fun (c' : Category) => iexact c'.name value && c'.user == owner)).isEmpty
          = false := by
      rw [List.isEmpty_eq_false]
      exact List.ne_nil_of_mem hmem
    rw [validate_name]
    simp only [hne]
    exact ⟨_, rfl, rfl⟩
  · intro hinv
    have hnil : (db.filter
        (fun (c' : Category) => iexact c'.name c.name && c'.user == owner)).filter
          (fun c' => !(c'.id == c.id)) = [] := by
      rw [List.filter_eq_nil_iff]
      intro c' hc'
      rw [List.mem_filter] at hc'
      have hp := hc'.2
      rw [Bool.and_eq_true] at hp
      have h2 : c'.user = owner := by simpa using hp.2
      have := hinv c' hc'.1 h2 hp.1
      simp [this]
    rw [validate_name]
    simp [hnil]
  · intro hnone
    have hnil : db.filter
        (fun (c' : Category) => iexact c'.name value && c'.user == otherOther) = [] := by
      rw [List.filter_eq_nil_iff]
      intro c' hc'
      rw [Bool.and_eq_true]
      intro hcontra
      have hu : c'.user = otherOther := by simpa using hcontra.2
      have := hnone c' hc' hu
      rw [hcontra.1] at this
      cases this
    rw [validate_name]
    simp [hnil]

/-- The category used by the C6 witness: owner 1 already has "Work". -/
def workCategory : Category :=
  { id := 1, name := "Work", colour := "#ef4444", user := 1 }

/-- Witness for C6 at concrete inputs: owner 1 creating "work" is rejected
on the name field, owner 1 keeping "Work" on update is accepted, and
owner 2 creating "work" is accepted. -/
theorem category_name_uniqueness_witness :
    (∃ e, validate_name [workCategory] 1 "work" none = Except.error e ∧
      e.field = "name") ∧
    validate_name [workCategory] 1 workCategory.name (some workCategory.id)
      = Except.ok () ∧
    validate_name [workCategory] 2 "work" none = Except.ok () := by
  have h := category_name_uniqueness [workCategory] 1 2 workCategory "work"
    (by decide) rfl (by decide)
  exact ⟨h.1, h.2.1 (by decide), h.2.2 (by decide)⟩

/-- C8: the stats payload always carries the three status keys and the four
priority keys in order, counts per key are zero-filled filters of the
scoped queryset, the overdue count uses exactly the overdue filter's
predicate, and on an empty task set everything is zero. -/
theorem stats_shape_and_zero_fill (qs : List Task) (today : Int) :
    ((statsView qs today).by_status.map Prod.fst = ["todo", "in_progress", "done"]) ∧
    ((statsView qs today).by_priority.map Prod.fst
      = ["low", "medium", "high", "urgent"]) ∧
    ((statsView qs today).overdue = (filter_overdue today qs true).length) ∧
    ((statsView qs today).total = qs.length) ∧
    (statsView [] today =
      { total := 0
      , by_status := [("todo", 0), ("in_progress", 0), ("done", 0)]
      , by_priority := [("low", 0), ("medium", 0), ("high", 0), ("urgent", 0)]
      , overdue := 0 }) := by
  refine ⟨rfl, rfl, ?_, rfl, rfl⟩
  rw [statsView, filter_overdue, if_pos rfl]
  rfl

/-- C10: the comma-separated status/priority parameter is split on commas,
trimmed, with empty segments dropped; a surviving value set filters the
queryset by membership, and an all-empty value (for example ",," or
whitespace) leaves the queryset untouched. -/
theorem csv_filter_membership (fieldOf : Task → String) (qs : List Task)
    (value : String) :
    (csvValues value = [] → filter_csv_field fieldOf qs value = qs) ∧
    (csvValues value ≠ [] → ∀ t, t ∈ filter_csv_field fieldOf qs value ↔
      t ∈ qs ∧ fieldOf t ∈ csvValues value) := by
  constructor
  · intro h
    rw [filter_csv_field]
    simp [h]
  · intro h t
    have hiE : (csvValues value).isEmpty = false := by
      cases hv : csvValues value with
      | nil => exact absurd hv h
      | cons a l => rfl
    rw [filter_csv_field]
    simp [hiE, List.mem_filter]

/-- Witness for C4 at a concrete input: the sample task (due yesterday,
in progress) is overdue on day 0. -/
theorem is_overdue_characterisation_witness :
    sampleTask.is_overdue 0 = true :=
  (is_overdue_characterisation sampleTask 0).1.mpr ⟨⟨-1, rfl, by decide⟩, by decide⟩

/-- Witness for C5 at a concrete input: the sample task is in the
`?overdue=true` result over the singleton queryset. -/
theorem overdue_filter_partitions_witness :
    sampleTask ∈ filter_overdue 0 [sampleTask] true :=
  (overdue_filter_partitions 0 [sampleTask] sampleTask).1.mpr
    ⟨List.mem_singleton.mpr rfl, ⟨-1, rfl, by decide⟩, by decide⟩

/-- Witness for C7 at concrete inputs: a past due date is accepted on
update and rejected on create. -/
theorem due_date_validation_create_only_witness :
    validate_due_date (some (-3)) false 0 = Except.ok () ∧
    (∃ e, validate_due_date (some (-3)) true 0 = Except.error e) :=
  ⟨(due_date_validation_create_only (some (-3)) false 0).2.1 (-3),
   (due_date_validation_create_only (some (-3)) true 0).1.mpr ⟨rfl, -3, rfl, by decide⟩⟩

/-- An active account used by the C9 witness. -/
def aliceAccount : Account :=
  { id := 1, email := "alice@example.com", is_active := true }

/-- Witness for C9 at concrete inputs: an existing and a non-existing email
get the same response. -/
theorem password_reset_uniform_response_witness :
    (passwordResetRequest [aliceAccount] "alice@example.com").1
      = (passwordResetRequest [aliceAccount] "nobody@example.com").1 :=
  (password_reset_uniform_response [aliceAccount]
    "alice@example.com" "nobody@example.com").1

/-- Witness for C8 at a concrete input: stats on the empty task set are
zero-filled over every status and priority key. -/
theorem stats_shape_and_zero_fill_witness :
    statsView [] 0 =
      { total := 0
      , by_status := [("todo", 0), ("in_progress", 0), ("done", 0)]
      , by_priority := [("low", 0), ("medium", 0), ("high", 0), ("urgent", 0)]
      , overdue := 0 } :=
  (stats_shape_and_zero_fill [] 0).2.2.2.2

/-- Witness for C10 at concrete inputs: an all-empty CSV value is a no-op,
and a real CSV value filters by membership. -/
theorem csv_filter_membership_witness :
    filter_csv_field (fun t => t.status.value) [sampleTask] " ,, " = [sampleTask] ∧
    (sampleTask ∈ filter_csv_field (fun t => t.status.value) [sampleTask]
        " in_progress , done" ↔
      sampleTask ∈ [sampleTask] ∧
        sampleTask.status.value ∈ csvValues " in_progress , done") :=
  ⟨(csv_filter_membership (fun t => t.status.value) [sampleTask] " ,, ").1 (by decide),
   (csv_filter_membership (fun t => t.status.value) [sampleTask]
      " in_progress , done").2 (by decide) sampleTask⟩

end TasksApp
